import Mathlib

/-!
Verification development for the `ai-cicd-github` repository: CI helper
scripts (`scripts/ai_review.py`, `scripts/generate_tests.py`,
`scripts/find_stale.py`) that call a hosted text-generation API.

The Python code is shallowly embedded: the external API call is modelled as
an oracle `Nat → ApiResult` giving, for each attempt number, either the
response text (`response.text`, an optional string) or the message of the
raised exception.  Python string primitives used by the scripts
(`str.strip`, `str.startswith`, `in`, `str.split(sep, 1)`,
`str.rsplit(sep, 1)`, `str.lower`, `str.upper`, `str.split(sep)`) are
modelled on `List Char` / `String`; `lower`/`upper` are modelled
character-wise, which agrees with CPython on the ASCII data these scripts
handle.  Real-time sleeps (`time.sleep`) are modelled by counting the retry
sleeps, each of the fixed configured duration `RETRY_SLEEP_SECONDS`.
-/

/-- Python whitespace characters stripped by `str.strip()`. -/
def pyIsSpace (c : Char) : Bool :=
  c = ' ' || c = '\t' || c = '\n' || c = '\r' || c = '\x0b' || c = '\x0c'

/-- Strip leading and trailing whitespace from a character list
(model of Python `str.strip()` at the `List Char` level). -/
def stripChars (l : List Char) : List Char :=
  ((l.dropWhile pyIsSpace).reverse.dropWhile pyIsSpace).reverse

/-- Model of Python `str.strip()`. -/
def pyStrip (s : String) : String :=
  String.mk (stripChars s.toList)

/-- Model of Python `str.lower()` (character-wise; ASCII-faithful). -/
def pyLower (s : String) : String := String.mk (s.toList.map Char.toLower)

/-- Model of Python `str.upper()` (character-wise; ASCII-faithful). -/
def pyUpper (s : String) : String := String.mk (s.toList.map Char.toUpper)

/-- `listStartsWith l p` is true when `p` is a prefix of `l`. -/
def listStartsWith : List Char → List Char → Bool
  | _, [] => true
  | [], _ :: _ => false
  | c :: t, p :: ps => c == p && listStartsWith t ps

/-- Model of Python `str.startswith`. -/
def pyStartsWith (s pre : String) : Bool :=
  listStartsWith s.toList pre.toList

/-- Model of Python `str.endswith`. -/
def pyEndsWith (s suf : String) : Bool :=
  listStartsWith s.toList.reverse suf.toList.reverse

/-- Split a list at the first occurrence of `sep`: returns
`some (before, after)` with `l = before ++ sep ++ after` and `before`
shortest, or `none` when `sep` does not occur.  Underlies the models of
Python `in`, `str.split(sep, 1)` and `str.rsplit(sep, 1)`. -/
def breakOnSub? (sep : List Char) : List Char → Option (List Char × List Char)
  | [] => if sep.isEmpty then some ([], []) else none
  | c :: t =>
    if listStartsWith (c :: t) sep then some ([], (c :: t).drop sep.length)
    else
      match breakOnSub? sep t with
      | some (b, a) => some (c :: b, a)
      | none => none

/-- Split a list at the last occurrence of `sep` (via the first occurrence
of the reversed separator in the reversed list). -/
def breakOnSubLast? (sep l : List Char) : Option (List Char × List Char) :=
  match breakOnSub? sep.reverse l.reverse with
  | some (b, a) => some (a.reverse, b.reverse)
  | none => none

/-- Model of the Python substring test `pat in s`. -/
def strContains (s pat : String) : Bool :=
  (breakOnSub? pat.toList s.toList).isSome

/-- Model of Python `s.split(sep, 1)[1]` (the part after the first
occurrence of `sep`).  In the scripts this indexing is only reached when
`sep` occurs in `s`; the `none` branch is unreachable there. -/
def pySplitOnceAfter (s sep : String) : String :=
  match breakOnSub? sep.toList s.toList with
  | some (_, a) => String.mk a
  | none => ""

/-- Fuel-driven worker for `pySplitAll`: split `l` on every occurrence of
`sep`.  Each step removes at least one character (the scripts only split on
non-empty separators), so `l.length + 1` units of fuel always suffice. -/
def splitOnListFuel : Nat → List Char → List Char → List (List Char)
  | 0, _, l => [l]
  | fuel + 1, sep, l =>
    match breakOnSub? sep l with
    | none => [l]
    | some (b, a) => b :: splitOnListFuel fuel sep a

/-- Model of Python `str.split(sep)` (no maxsplit): split on every
occurrence of the separator, keeping empty parts. -/
def pySplitAll (s sep : String) : List String :=
  (splitOnListFuel (s.toList.length + 1) sep.toList s.toList).map String.mk

/-- Model of Python `s.rsplit(sep, 1)[0]`: everything before the last
occurrence of `sep`, or `s` itself when `sep` does not occur. -/
def pyRsplitBeforeLast (s sep : String) : String :=
  match breakOnSubLast? sep.toList s.toList with
  | some (b, _) => String.mk b
  | none => s

/-- Python truthiness of an optional string (`None` and `""` are falsy):
models `if not api_key:` on `os.environ.get(...)`. -/
def pyTruthy : Option String → Bool
  | none => false
  | some s => !s.isEmpty

/-- Model of Python `str(x)` on an `Optional[str]` (`str(None) = "None"`). -/
def pyStrOfOpt : Option String → String
  | none => "None"
  | some s => s

/-- Model of Python `(x or "")` on an `Optional[str]` (an empty string is
falsy, so the result is unchanged by collapsing it to `""`). -/
def pyOrEmpty : Option String → String
  | none => ""
  | some s => s

/-! ### Shared rate-limited caller (`scripts/ai_review.py` lines 11-66,
`scripts/generate_tests.py` lines 51-106) -/

/-- Outcome of one `client.models.generate_content` call: either the
`response.text` value (`none` models a `None` text) or the message of the
exception it raised. -/
inductive ApiResult where
  | success (text : Option String)
  | failure (msg : String)
deriving DecidableEq

/-- Result of running the `for attempt in range(1, MAX_RETRIES + 1)` loop:
the function returned a text, an exception propagated out, or the loop
exhausted all attempts (falling through with the recorded `last_err`).
`sleeps` counts the `time.sleep(RETRY_SLEEP_SECONDS)` calls performed. -/
inductive LoopResult where
  | returned (text : String) (sleeps : Nat)
  | raised (msg : String) (sleeps : Nat)
  | exhausted (lastErr : Option String) (sleeps : Nat)
deriving DecidableEq

/-- Observable outcome of `review_code` / `generate_tests_for_function`:
the returned text or the propagated exception message, together with the
number of fixed-duration retry sleeps performed. -/
inductive CallOutcome where
  | returned (text : String) (retrySleeps : Nat)
  | raised (msg : String) (retrySleeps : Nat)
deriving DecidableEq

/-- `_is_rate_limit_error` — defined identically in `scripts/ai_review.py`
(lines 11-13) and `scripts/generate_tests.py` (lines 51-53):
`("429" in msg) or ("RESOURCE_EXHAUSTED" in msg) or ("rate limit" in msg.lower())`. -/
def _is_rate_limit_error (msg : String) : Bool :=
  strContains msg "429" || strContains msg "RESOURCE_EXHAUSTED" ||
    strContains (pyLower msg) "rate limit"

/-- Default `GEMINI_RETRY_SLEEP`: the fixed duration, in seconds, of every
retry sleep (both scripts). -/
def RETRY_SLEEP_SECONDS : Nat := 25

/-- The retry loop shared by `review_code` and
`generate_tests_for_function`: at each attempt, call the API; on success
return `(response.text or "").strip()`; on an exception record it in
`last_err`, and if it is classified as a rate limit sleep the fixed delay
and continue, otherwise re-raise.  `attempt` is the current attempt number,
`remaining` the number of attempts left, `sleeps` the retry sleeps done. -/
def attemptLoop (api : Nat → ApiResult) :
    Nat → Nat → Option String → Nat → LoopResult
  | _, 0, lastErr, sleeps => .exhausted lastErr sleeps
  | attempt, remaining + 1, _lastErr, sleeps =>
    match api attempt with
    | .success t => .returned (pyStrip (pyOrEmpty t)) sleeps
    | .failure m =>
      if _is_rate_limit_error m then
        attemptLoop api (attempt + 1) remaining (some m) (sleeps + 1)
      else
        .raised m sleeps

namespace AiReview

/-- Default `GEMINI_MAX_RETRIES` in `scripts/ai_review.py` (line 7). -/
def MAX_RETRIES : Nat := 4

/-- The canned fallback returned by `review_code` when all retries are
exhausted (`scripts/ai_review.py` lines 62-66). -/
def reviewQuotaFallback : String :=
  "AI review skipped due to Gemini quota/rate limit.\n\nSEVERITY_SUMMARY: WARNING"

/-- `review_code` (`scripts/ai_review.py` lines 16-66), abstracted over the
generation API and the configured retry bound: run the retry loop; if it
falls through (all attempts rate-limited), return the canned fallback text
instead of raising. -/
def review_code (api : Nat → ApiResult) (maxRetries : Nat) : CallOutcome :=
  match attemptLoop api 1 maxRetries none 0 with
  | .returned t s => .returned t s
  | .raised m s => .raised m s
  | .exhausted _ s => .returned reviewQuotaFallback s

/-- The scan over one line of review text done by the body of the loop in
`parse_severity`: if the stripped line starts with `"SEVERITY_SUMMARY:"`,
take the part after the first colon, strip it, uppercase it, and keep it
when it is one of `CRITICAL`/`WARNING`/`GOOD`.  Factored out so that the
loop of `parse_severity` and its specification can share it. -/
def lineLevel? (line : String) : Option String :=
  if pyStartsWith (pyStrip line) "SEVERITY_SUMMARY:" then
    let level := pyUpper (pyStrip (pySplitOnceAfter line ":"))
    if level = "CRITICAL" || level = "WARNING" || level = "GOOD" then some level
    else none
  else none

/-- The `for line in ...` loop of `parse_severity`
(`scripts/ai_review.py` lines 70-75): return the level of a prefixed line
when it is valid, otherwise keep scanning; default to `"WARNING"` when the
lines run out. -/
def severityLoop : List String → String
  | [] => "WARNING"
  | line :: rest =>
    if pyStartsWith (pyStrip line) "SEVERITY_SUMMARY:" then
      let level := pyUpper (pyStrip (pySplitOnceAfter line ":"))
      if level = "CRITICAL" || level = "WARNING" || level = "GOOD" then level
      else severityLoop rest
    else severityLoop rest

/-- `parse_severity` (`scripts/ai_review.py` lines 69-75):
scan `review_text.strip().split("\n")` line by line. -/
def parse_severity (review_text : String) : String :=
  severityLoop (pySplitAll (pyStrip review_text) "\n")

/-- Specification-shaped reformulation of `parse_severity`: the level of
the first prefixed line carrying a valid level, defaulting to `"WARNING"`.
Compared against `parse_severity` in the refinement theorem for C3. -/
def parse_severity_spec (review_text : String) : String :=
  ((pySplitAll (pyStrip review_text) "\n").findSome? lineLevel?).getD "WARNING"

/-- The placeholder review printed (and whose severity is written) when
`GEMINI_API_KEY` is absent (`scripts/ai_review.py` line 89). -/
def missingKeyReview : String :=
  "AI review skipped (missing GEMINI_API_KEY).\n\nSEVERITY_SUMMARY: WARNING"

/-- Observable outcome of running `scripts/ai_review.py` as a script:
either the process exited with `code`, having printed `printed` and written
`severityFile` to `severity.txt`, or an exception propagated.  `apiCalled`
records whether the Gemini client was ever invoked. -/
inductive MainOutcome where
  | exited (code : Nat) (printed : String) (severityFile : String)
      (apiCalled : Bool)
  | raised (msg : String) (apiCalled : Bool)
deriving DecidableEq

/-- The `__main__` block of `scripts/ai_review.py` (lines 78-103),
abstracted over the credential and the generation API: with no (or an
empty) `GEMINI_API_KEY`, print the placeholder, write `"WARNING"` and exit
`0` without constructing a client; otherwise run `review_code` and write
the parsed severity. -/
def ai_review_main (api_key : Option String) (api : Nat → ApiResult) :
    MainOutcome :=
  if pyTruthy api_key = false then
    .exited 0 missingKeyReview "WARNING" false
  else
    match review_code api MAX_RETRIES with
    | .returned t _ => .exited 0 t (parse_severity t) true
    | .raised m _ => .raised m true

end AiReview

namespace GenerateTests

/-- Default `GEMINI_MAX_RETRIES` in `scripts/generate_tests.py` (line 16). -/
def MAX_RETRIES : Nat := 6

/-- Default `GEMINI_REQUEST_SLEEP` (line 13): pacing delay after each
successful call, independent of the retry logic. -/
def REQUEST_SLEEP_SECONDS : Nat := 15

/-- `SKIP_FILES` (`scripts/generate_tests.py` line 20). -/
def SKIP_FILES : List String := ["dangerous.py"]

/-- `SKIP_FUNCTION_NAMES` (`scripts/generate_tests.py` line 21). -/
def SKIP_FUNCTION_NAMES : List String := ["run_command"]

/-- `generate_tests_for_function` (`scripts/generate_tests.py` lines
56-106), abstracted over the generation API and the configured retry bound:
the same retry loop as `review_code`, but when the loop exhausts all
attempts it raises `RuntimeError` reporting the recorded `last_err` instead
of returning a fallback.  (The post-success pacing sleep of
`REQUEST_SLEEP_SECONDS` does not change the returned text.) -/
def generate_tests_for_function (api : Nat → ApiResult) (maxRetries : Nat) :
    CallOutcome :=
  match attemptLoop api 1 maxRetries none 0 with
  | .returned t s => .returned t s
  | .raised m s => .raised m s
  | .exhausted lastErr s =>
    .raised ("Gemini error: retries exhausted. Last error: " ++ pyStrOfOpt lastErr) s

/-- Shallow embedding of the parsed Python syntax tree as walked by
`extract_functions`: a `funcDef` node carries the data the script reads
off an `ast.FunctionDef` (`node.name`, the `arg.arg` names of
`node.args.args`, `ast.get_docstring(node)` — `none` when absent — and the
`ast.get_source_segment` text), plus its child statements; every other
node kind only contributes its children. -/
inductive PyNode where
  | funcDef (name : String) (args : List String) (docstring : Option String)
      (source : String) (body : List PyNode)
  | other (children : List PyNode)

/-- Child nodes visited by the walk. -/
def nodeChildren : PyNode → List PyNode
  | .funcDef _ _ _ _ body => body
  | .other children => children

mutual

/-- Number of nodes in a tree (the walk visits each exactly once). -/
def sizeNode : PyNode → Nat
  | .funcDef _ _ _ _ body => 1 + sizeNodes body
  | .other children => 1 + sizeNodes children

/-- Total number of nodes in a forest. -/
def sizeNodes : List PyNode → Nat
  | [] => 0
  | n :: t => sizeNode n + sizeNodes t

end

/-- Fuel-driven breadth-first walk (model of `ast.walk`): pop the front
node, yield it, and push its children at the back.  Each step consumes one
node of the forest, so `sizeNodes queue` units of fuel suffice. -/
def bfsAux : Nat → List PyNode → List PyNode
  | 0, _ => []
  | _, [] => []
  | fuel + 1, n :: rest => n :: bfsAux fuel (rest ++ nodeChildren n)

/-- `ast.walk(tree)`: breadth-first traversal starting from the root. -/
def bfsWalk (queue : List PyNode) : List PyNode :=
  bfsAux (sizeNodes queue) queue

/-- The per-function record built by `extract_functions` (lines 39-46). -/
structure FuncInfo where
  name : String
  args : List String
  docstring : String
  source : String
deriving DecidableEq

/-- The record captured for a walked node when it is a `FunctionDef`
(`isinstance(node, ast.FunctionDef)`), with `ast.get_docstring(node) or ""`
for the docstring. -/
def toFuncInfo? : PyNode → Option FuncInfo
  | .funcDef name args docstring source _ =>
    some ⟨name, args, docstring.getD "", source⟩
  | .other _ => none

/-- `extract_functions` (`scripts/generate_tests.py` lines 24-48), given
the parsed tree: collect a descriptor for every `FunctionDef` met by
`ast.walk`, in walk order, with no deduplication and no name filtering. -/
def extract_functions (tree : PyNode) : List FuncInfo :=
  (bfsWalk [tree]).filterMap toFuncInfo?

/-- The filtering step of `main` (`scripts/generate_tests.py` lines
147-151), applied after extraction: drop functions whose name starts with
an underscore or is in `SKIP_FUNCTION_NAMES`. -/
def filterFunctions (functions : List FuncInfo) : List FuncInfo :=
  functions.filter fun f =>
    !(pyStartsWith f.name "_") && !(SKIP_FUNCTION_NAMES.contains f.name)

mutual

/-- Number of `funcDef` nodes in a tree. -/
def countFuncDefsNode : PyNode → Nat
  | .funcDef _ _ _ _ body => 1 + countFuncDefsList body
  | .other children => countFuncDefsList children

/-- Number of `funcDef` nodes in a forest. -/
def countFuncDefsList : List PyNode → Nat
  | [] => 0
  | n :: t => countFuncDefsNode n + countFuncDefsList t

end

/-- Observable outcome of `main` in `scripts/generate_tests.py`:
normal completion or a propagated exception; `apiCalled` records whether
the Gemini client was ever invoked. -/
inductive GenMainOutcome where
  | finished (apiCalled : Bool)
  | raised (msg : String) (apiCalled : Bool)
deriving DecidableEq

/-- The entry of `main` in `scripts/generate_tests.py` (lines 119-131):
with no changed files it returns after printing; otherwise a missing (or
empty) `GEMINI_API_KEY` raises `RuntimeError` before any client is
constructed.  `rest` abstracts the per-file generation loop that runs once
a client exists (its retry behavior is `generate_tests_for_function`). -/
def generate_tests_main (changed_files : List String)
    (api_key : Option String) (rest : GenMainOutcome) : GenMainOutcome :=
  if changed_files.isEmpty then .finished false
  else if pyTruthy api_key = false then
    .raised "Missing GEMINI_API_KEY environment variable" false
  else rest

/-- Example tree for the C6 scenario: a module defining `a`, `_private`
and `b` at the top level. -/
def exampleModule : PyNode :=
  .other [.funcDef "a" ["x"] (some "Doc a.") "def a(x): return x" [],
          .funcDef "_private" [] none "def _private(): pass" [],
          .funcDef "b" [] none "def b(): pass" []]

/-- Example tree with a nested function and a shadowed (duplicate) name:
`outer` defined twice, the first definition containing a nested `inner`. -/
def nestedModule : PyNode :=
  .other [.funcDef "outer" [] none "def outer(): ..."
            [.funcDef "inner" [] none "def inner(): ..." []],
          .funcDef "outer" [] none "def outer(): pass" []]

end GenerateTests

namespace FindStale

/-- JSON values as produced by `json.loads` (numbers kept as integers —
the prompt asks for integer minute estimates and no claim depends on
non-integral numbers). -/
inductive Json where
  | null
  | bool (b : Bool)
  | num (n : Int)
  | str (s : String)
  | arr (elems : List Json)
  | obj (fields : List (String × Json))

/-- The record `{"error": str(e), "findings": []}` returned by
`analyze_code_with_gemini` on any exception (line 85). -/
def errRecord (e : String) : Json :=
  .obj [("error", Json.str e), ("findings", Json.arr [])]

/-- The code-fence handling of `analyze_code_with_gemini` (lines 79-81):
if the stripped response starts with three backticks, drop the first line
(`split("\n", 1)[1]` — an `IndexError` when there is no newline, modelled
by its message), then drop the last fence and everything after it
(`rsplit` + `[0]`) and strip. -/
def fenceStrip (response_text : String) : Except String String :=
  if pyStartsWith response_text "```" then
    match breakOnSub? "\n".toList response_text.toList with
    | none => Except.error "list index out of range"
    | some (_, rest) =>
      Except.ok (pyStrip (pyRsplitBeforeLast (String.mk rest) "```"))
  else Except.ok response_text

/-- `analyze_code_with_gemini` (`scripts/find_stale.py` lines 33-85),
abstracted over `json.loads` (the `loads` parameter, Python standard
library) and the generation call (`call` is the `response.text` of a
successful call, or the message of the exception it raised): strip the
response, undo an optional code fence, and parse; any failure anywhere in
the `try` block yields the error record instead of raising. -/
def analyze_code_with_gemini (loads : String → Except String Json)
    (call : Except String String) : Json :=
  match (do
      let raw ← call
      let stripped ← fenceStrip (pyStrip raw)
      loads stripped : Except String Json) with
  | .ok j => j
  | .error e => errRecord e

/-- First-match association lookup in a JSON object (`json.loads` never
produces duplicate keys). -/
def assocGet? : List (String × Json) → String → Option Json
  | [], _ => none
  | (k, v) :: t, key => if k = key then some v else assocGet? t key

/-- Model of Python `key in result` on a parsed JSON object. -/
def jsonHasKey (j : Json) (key : String) : Bool :=
  match j with
  | .obj fields => (assocGet? fields key).isSome
  | _ => false

/-- Model of `result.get("findings", [])` as iterated by `main`
(line 139): the findings array, or `[]` when the key is absent. -/
def jsonGetFindings (j : Json) : List Json :=
  match j with
  | .obj fields =>
    match assocGet? fields "findings" with
    | some (.arr elems) => elems
    | _ => []
  | _ => []

/-- Replace-or-append on an association list (Python dict assignment). -/
def assocSet : List (String × Json) → String → Json → List (String × Json)
  | [], key, v => [(key, v)]
  | (k, w) :: t, key, v =>
    if k = key then (key, v) :: t else (k, w) :: assocSet t key v

/-- Model of `finding["file"] = file_path` (line 140). -/
def jsonSetKey (j : Json) (key : String) (v : Json) : Json :=
  match j with
  | .obj fields => .obj (assocSet fields key v)
  | other => other

/-- The per-file tail of the scan loop of `main` (lines 133-141): when the
analysis result carries an `"error"` key, log and continue with the
accumulator unchanged; otherwise append its findings, each stamped with the
file path. -/
def scanStep (acc : List Json) (file_path : String) (result : Json) :
    List Json :=
  if jsonHasKey result "error" then acc
  else acc ++ (jsonGetFindings result).map fun f =>
    jsonSetKey f "file" (Json.str file_path)

/-- The findings accumulated by `main` (`scripts/find_stale.py` lines
114-155) over its file list, abstracted over `read_file_content` (`read`)
and the per-file analysis (`analyze`, taking the content and path):
files whose read failed — `read_file_content` returned an
`"Error reading file:"` placeholder — are skipped before analysis. -/
def main_findings (read : String → String)
    (analyze : String → String → Json) (python_files : List String) :
    List Json :=
  python_files.foldl
    (fun acc file_path =>
      let content := read file_path
      if pyStartsWith content "Error reading file:" then acc
      else scanStep acc file_path (analyze content file_path))
    []

/-- The `__main__` block (`scripts/find_stale.py` lines 158-160):
`raise SystemExit(1 if findings else 0)` — Python truthiness of a list is
non-emptiness. -/
def scan_exit_code (findings : List Json) : Nat :=
  if findings.isEmpty then 0 else 1

/-- Directory names skipped by `get_python_files` (line 17). -/
def IGNORED_PARTS : List String :=
  ["venv", ".venv", "node_modules", "__pycache__", ".git"]

/-- `get_python_files` (`scripts/find_stale.py` lines 11-21).  A path is
modelled as its list of components (`path.parts`); the filesystem walk
`Path(repo_path).rglob("*.py")` is modelled from its documented contract as
keeping the paths whose final component ends in `".py"`.  A path any of
whose components is one of the ignored directory names is skipped. -/
def get_python_files (paths : List (List String)) : List (List String) :=
  (paths.filter fun p =>
      match p.getLast? with
      | some name => pyEndsWith name ".py"
      | none => false).filter
    fun p => !(IGNORED_PARTS.any fun part => p.contains part)

/-- Concrete body used by the C4 witness: the JSON text
`{"findings": []}` (braces written as character escapes). -/
def body0 : String := "\x7b\"findings\": []\x7d"

/-- The JSON value of `body0`. -/
def j0 : Json := .obj [("findings", Json.arr [])]

/-- Concrete stand-in for `json.loads` used by the C4 witness: parses
`body0` to `j0` and fails on anything else. -/
def loads0 : String → Except String Json := fun s =>
  if s = body0 then Except.ok j0
  else Except.error "Expecting value: line 1 column 1 (char 0)"

/-- Concrete reader for the C7 example scan: every file reads fine. -/
def read0 : String → String := fun _ => "import os\n"

/-- Concrete per-file analysis for the C7 example scan: `a.py` yields one
finding, every other file yields none. -/
def analyze0 : String → String → Json := fun _ file_path =>
  if file_path = "a.py" then
    Json.obj [("findings",
      Json.arr [Json.obj [("name", Json.str "unused_helper")]])]
  else Json.obj [("findings", Json.arr [])]

end FindStale

/-- API oracle for the C1 witness: attempt 1 fails rate-limited, every
later attempt fails with an unrelated error. -/
def apiOneRateLimitThenBoom : Nat → ApiResult := fun i =>
  if i = 1 then ApiResult.failure "HTTP 429 Too Many Requests"
  else ApiResult.failure "boom"

/-- API oracle for the C2/C9 witnesses: every attempt fails rate-limited. -/
def apiAlwaysRateLimited : Nat → ApiResult := fun _ =>
  ApiResult.failure "429 RESOURCE_EXHAUSTED"

/-! ### Helper lemmas: substring primitives -/

theorem listStartsWith_iff : ∀ (l p : List Char),
    listStartsWith l p = true ↔ ∃ rest, l = p ++ rest := by
  intro l p
  induction p generalizing l with
  | nil => simp [listStartsWith]
  | cons x xs ih =>
    cases l with
    | nil => simp [listStartsWith]
    | cons c t =>
      simp only [listStartsWith, Bool.and_eq_true, beq_iff_eq, ih,
        List.cons_append, List.cons.injEq]
      constructor
      · rintro ⟨rfl, rest, rfl⟩
        exact ⟨rest, rfl, rfl⟩
      · rintro ⟨rest, rfl, rfl⟩
        exact ⟨rfl, rest, rfl⟩

theorem breakOnSub?_eq_some (sep : List Char) : ∀ {l b a : List Char},
    breakOnSub? sep l = some (b, a) → l = b ++ sep ++ a := by
  intro l
  induction l with
  | nil =>
    intro b a h
    simp only [breakOnSub?] at h
    by_cases hs : sep.isEmpty
    · simp only [hs, if_pos] at h
      obtain ⟨rfl, rfl⟩ := Prod.mk.injEq .. ▸ Option.some.injEq .. ▸ h
      simp_all [List.isEmpty_iff]
    · simp [hs] at h
  | cons c t ih =>
    intro b a h
    simp only [breakOnSub?] at h
    by_cases hsw : listStartsWith (c :: t) sep
    · rw [if_pos hsw] at h
      obtain ⟨rest, hrest⟩ := (listStartsWith_iff _ _).mp hsw
      injection h with h
      obtain ⟨rfl, rfl⟩ := Prod.mk.injEq .. ▸ h
      rw [List.nil_append, hrest, List.drop_left' rfl]
    · rw [if_neg hsw] at h
      revert h
      cases hrec : breakOnSub? sep t with
      | none => intro h; exact absurd h (by simp)
      | some pr =>
        obtain ⟨b2, a2⟩ := pr
        intro h
        injection h with h
        obtain ⟨rfl, rfl⟩ := Prod.mk.injEq .. ▸ h
        simpa using congrArg (c :: ·) (ih hrec)

theorem breakOnSub?_eq_none (sep : List Char) : ∀ {l : List Char},
    breakOnSub? sep l = none → ∀ pre post, l ≠ pre ++ sep ++ post := by
  intro l
  induction l with
  | nil =>
    intro h pre post heq
    simp only [breakOnSub?] at h
    by_cases hs : sep.isEmpty
    · simp [hs] at h
    · rw [List.isEmpty_iff] at hs
      have hpos : 0 < sep.length := List.length_pos.mpr hs
      have := congrArg List.length heq
      simp at this
      omega
  | cons c t ih =>
    intro h pre post heq
    simp only [breakOnSub?] at h
    by_cases hsw : listStartsWith (c :: t) sep
    · simp [hsw] at h
    · rw [if_neg hsw] at h
      cases hrec : breakOnSub? sep t with
      | some pr => rw [hrec] at h; obtain ⟨b2, a2⟩ := pr; simp at h
      | none =>
        cases pre with
        | nil =>
          apply hsw
          rw [listStartsWith_iff]
          exact ⟨post, by simpa using heq⟩
        | cons x xs =>
          have hx : c = x ∧ t = xs ++ sep ++ post := by
            simpa [List.cons_append, List.cons.injEq] using heq
          exact ih hrec xs post hx.2

/-- When every attempt in the window `[a, a + r)` fails with a
rate-limit-classified error, the loop performs all `r` attempts (sleeping
after each failure) and falls through with the last error recorded. -/
theorem attemptLoop_exhausts (api : Nat → ApiResult) :
    ∀ (r a : Nat) (le : Option String) (s0 : Nat), 0 < r →
      (∀ i, a ≤ i → i < a + r →
        ∃ m, api i = ApiResult.failure m ∧ _is_rate_limit_error m = true) →
      ∃ m, api (a + r - 1) = ApiResult.failure m ∧
        attemptLoop api a r le s0 = LoopResult.exhausted (some m) (s0 + r) := by
  intro r
  induction r with
  | zero => intro a le s0 h; omega
  | succ r ih =>
    intro a le s0 _ hall
    obtain ⟨m, hm, hrl⟩ := hall a (Nat.le_refl a) (by omega)
    cases r with
    | zero =>
      refine ⟨m, by simpa using hm, ?_⟩
      simp [attemptLoop, hm, hrl]
    | succ r2 =>
      obtain ⟨mlast, hmlast, hloop⟩ :=
        ih (a + 1) (some m) (s0 + 1) (Nat.succ_pos _)
          (fun i h1 h2 => hall i (by omega) (by omega))
      refine ⟨mlast, by convert hmlast using 2; omega, ?_⟩
      rw [attemptLoop]
      simp only [hm, hrl, if_true, eq_self_iff_true]
      rw [hloop]
      congr 1
      omega

/-- When the attempts in `[a, k)` fail rate-limited and attempt `k`
(within the window) fails with a non-rate-limit error, the loop re-raises
that error at attempt `k`, after exactly `k - a` retry sleeps. -/
theorem attemptLoop_raises (api : Nat → ApiResult) :
    ∀ (r a : Nat) (le : Option String) (s0 k : Nat) (m : String),
      a ≤ k → k < a + r →
      (∀ i, a ≤ i → i < k →
        ∃ mi, api i = ApiResult.failure mi ∧ _is_rate_limit_error mi = true) →
      api k = ApiResult.failure m → _is_rate_limit_error m = false →
      attemptLoop api a r le s0 = LoopResult.raised m (s0 + (k - a)) := by
  intro r
  induction r with
  | zero => intro a le s0 k m h1 h2; omega
  | succ r ih =>
    intro a le s0 k m hak hkr hpre hk hnrl
    rcases Nat.eq_or_lt_of_le hak with heq | hlt
    · subst heq
      simp [attemptLoop, hk, hnrl]
    · obtain ⟨mi, hmi, hirl⟩ := hpre a (Nat.le_refl a) hlt
      have := ih (a + 1) (some mi) (s0 + 1) k m hlt (by omega)
        (fun i h1 h2 => hpre i (by omega) h2) hk hnrl
      simp only [attemptLoop, hmi, hirl, if_pos]
      rw [this]
      congr 1
      omega

/-- The scan loop of `parse_severity` returns the result of the first
line carrying a valid severity level, defaulting to `"WARNING"`. -/
theorem severityLoop_eq_findSome? : ∀ lines : List String,
    AiReview.severityLoop lines =
      (lines.findSome? AiReview.lineLevel?).getD "WARNING" := by
  intro lines
  induction lines with
  | nil => rfl
  | cons line rest ih =>
    simp only [AiReview.severityLoop, AiReview.lineLevel?, List.findSome?_cons]
    by_cases h1 : pyStartsWith (pyStrip line) "SEVERITY_SUMMARY:"
    · simp only [h1, if_pos]
      by_cases h2 :
          (pyUpper (pyStrip (pySplitOnceAfter line ":")) = "CRITICAL" ||
            pyUpper (pyStrip (pySplitOnceAfter line ":")) = "WARNING" ||
            pyUpper (pyStrip (pySplitOnceAfter line ":")) = "GOOD") = true
      · simp [h2]
      · simp only [Bool.not_eq_true] at h2
        simp [h2, ih]
    · simp only [Bool.not_eq_true] at h1
      simp [h1, ih]

theorem string_toList_append (a b : String) :
    (a ++ b).toList = a.toList ++ b.toList := rfl

theorem string_mk_toList (l : List Char) : (String.mk l).toList = l := rfl

/-- Stripping ignores a trailing newline. -/
theorem stripChars_append_newline (l : List Char) :
    stripChars (l ++ ['\n']) = stripChars l := by
  unfold stripChars
  rw [List.dropWhile_append]
  by_cases hemp : (l.dropWhile pyIsSpace).isEmpty = true
  · rw [if_pos hemp]
    rw [List.isEmpty_iff] at hemp
    rw [hemp]
    rfl
  · rw [if_neg hemp]
    have hne : l.dropWhile pyIsSpace ≠ [] := by
      intro hnil
      exact hemp (by rw [hnil]; rfl)
    obtain ⟨x, xs, hx⟩ := List.exists_cons_of_ne_nil hne
    rw [hx]
    simp [List.reverse_append, List.dropWhile_cons_of_pos
      (show pyIsSpace '\n' = true from rfl)]

/-- Stripping a list that starts and ends with a non-space character is the
identity. -/
theorem stripChars_eq_self (c d : Char) (m : List Char)
    (hc : pyIsSpace c = false) (hd : pyIsSpace d = false) :
    stripChars (c :: (m ++ [d])) = c :: (m ++ [d]) := by
  unfold stripChars
  rw [List.dropWhile_cons_of_neg (by simp [hc])]
  rw [show (c :: (m ++ [d])).reverse = d :: (c :: m).reverse from by simp]
  rw [List.dropWhile_cons_of_neg (by simp [hd])]
  simp

/-- A text of the exact shape `"```json\n" ++ body ++ "\n```"` is already
stripped: it starts and ends with a backtick. -/
theorem pyStrip_fenced (body : String) :
    pyStrip ("```json\n" ++ body ++ "\n```") = "```json\n" ++ body ++ "\n```" := by
  have hpre : "```json\n".toList =
      Char.ofNat 96 :: Char.ofNat 96 :: Char.ofNat 96 ::
        'j' :: 's' :: 'o' :: 'n' :: '\n' :: [] := by decide
  have hsuf : "\n```".toList = '\n' :: Char.ofNat 96 :: Char.ofNat 96 ::
      Char.ofNat 96 :: [] := by decide
  have hbt : pyIsSpace (Char.ofNat 96) = false := by decide
  have hshape : ("```json\n" ++ body ++ "\n```").toList =
      Char.ofNat 96 ::
        ((Char.ofNat 96 :: Char.ofNat 96 :: 'j' :: 's' :: 'o' :: 'n' :: '\n' ::
          (body.toList ++ ['\n', Char.ofNat 96, Char.ofNat 96])) ++
            [Char.ofNat 96]) := by
    rw [string_toList_append, string_toList_append, hpre, hsuf]
    simp
  show String.mk (stripChars ("```json\n" ++ body ++ "\n```").toList) = _
  rw [hshape, stripChars_eq_self _ _ _ hbt hbt, ← hshape]
  rfl

/-- Undoing the code fence on `"```json\n" ++ body ++ "\n```"` recovers
exactly the stripped body: the first line is dropped, the trailing fence is
the last occurrence of three backticks, and the final strip removes the
newline left before it. -/
theorem fenceStrip_fenced (body : String) :
    FindStale.fenceStrip ("```json\n" ++ body ++ "\n```") =
      Except.ok (pyStrip body) := by
  have hpre : "```json\n".toList =
      Char.ofNat 96 :: Char.ofNat 96 :: Char.ofNat 96 ::
        'j' :: 's' :: 'o' :: 'n' :: '\n' :: [] := by decide
  have hsuf : "\n```".toList = '\n' :: Char.ofNat 96 :: Char.ofNat 96 ::
      Char.ofNat 96 :: [] := by decide
  have hfence : "```".toList =
      Char.ofNat 96 :: Char.ofNat 96 :: Char.ofNat 96 :: [] := by decide
  have hnl : "\n".toList = ['\n'] := by decide
  have e1 : (Char.ofNat 96 == '\n') = false := by decide
  have e2 : (('j' : Char) == '\n') = false := by decide
  have e3 : (('s' : Char) == '\n') = false := by decide
  have e4 : (('o' : Char) == '\n') = false := by decide
  have e5 : (('n' : Char) == '\n') = false := by decide
  have e6 : (('\n' : Char) == '\n') = true := by decide
  have e7 : (Char.ofNat 96 == Char.ofNat 96) = true := by decide
  have hpre7 : "```json".toList =
      Char.ofNat 96 :: Char.ofNat 96 :: Char.ofNat 96 ::
        'j' :: 's' :: 'o' :: 'n' :: [] := by decide
  unfold FindStale.fenceStrip
  have hstart : pyStartsWith ("```json\n" ++ body ++ "\n```") "```" = true := by
    unfold pyStartsWith
    rw [string_toList_append, string_toList_append, hpre, hfence]
    simp [listStartsWith, e7]
  rw [if_pos hstart]
  have hbreak : breakOnSub? "\n".toList
      ("```json\n" ++ body ++ "\n```").toList =
      some ("```json".toList, body.toList ++ "\n```".toList) := by
    rw [string_toList_append, string_toList_append, hpre, hnl, hpre7]
    simp only [List.cons_append, List.nil_append]
    simp [breakOnSub?, listStartsWith, e1, e2, e3, e4, e5, e6]
  have hfenceD : "```".data = Char.ofNat 96 :: Char.ofNat 96 ::
      Char.ofNat 96 :: [] := hfence
  have hsufD : "\n```".data = '\n' :: Char.ofNat 96 :: Char.ofNat 96 ::
      Char.ofNat 96 :: [] := hsuf
  have hrsplit : pyRsplitBeforeLast
      (String.mk (body.toList ++ "\n```".toList)) "```" =
      String.mk (body.toList ++ ['\n']) := by
    unfold pyRsplitBeforeLast breakOnSubLast?
    rw [string_mk_toList, hfenceD, hsuf]
    simp [breakOnSub?, listStartsWith, e7, List.reverse_append]
  have hstripnl : pyStrip (String.mk (body.toList ++ ['\n'])) = pyStrip body := by
    show String.mk (stripChars (String.mk (body.toList ++ ['\n'])).toList) = _
    rw [string_mk_toList, stripChars_append_newline]
    rfl
  simp only [hbreak]
  rw [hrsplit, hstripnl]

theorem sizeNodes_append (a b : List GenerateTests.PyNode) :
    GenerateTests.sizeNodes (a ++ b) =
      GenerateTests.sizeNodes a + GenerateTests.sizeNodes b := by
  induction a with
  | nil => simp [GenerateTests.sizeNodes]
  | cons n t ih => simp [GenerateTests.sizeNodes, ih]; omega

theorem sizeNode_eq (n : GenerateTests.PyNode) :
    GenerateTests.sizeNode n =
      1 + GenerateTests.sizeNodes (GenerateTests.nodeChildren n) := by
  cases n <;> rfl

theorem countFuncDefsList_append (a b : List GenerateTests.PyNode) :
    GenerateTests.countFuncDefsList (a ++ b) =
      GenerateTests.countFuncDefsList a + GenerateTests.countFuncDefsList b := by
  induction a with
  | nil => simp [GenerateTests.countFuncDefsList]
  | cons n t ih => simp [GenerateTests.countFuncDefsList, ih]; omega

/-- Every `funcDef` node of the forest contributes exactly one descriptor
to the breadth-first collection (given sufficient fuel). -/
theorem bfsAux_count : ∀ (fuel : Nat) (q : List GenerateTests.PyNode),
    GenerateTests.sizeNodes q ≤ fuel →
    ((GenerateTests.bfsAux fuel q).filterMap GenerateTests.toFuncInfo?).length =
      GenerateTests.countFuncDefsList q := by
  intro fuel
  induction fuel with
  | zero =>
    intro q hq
    cases q with
    | nil => rfl
    | cons n rest =>
      exfalso
      have h1 := sizeNode_eq n
      simp [GenerateTests.sizeNodes] at hq
      omega
  | succ fuel ih =>
    intro q hq
    cases q with
    | nil => rfl
    | cons n rest =>
      have hsz : GenerateTests.sizeNodes
          (rest ++ GenerateTests.nodeChildren n) ≤ fuel := by
        rw [sizeNodes_append]
        have h1 := sizeNode_eq n
        simp [GenerateTests.sizeNodes] at hq
        omega
      have hrec := ih (rest ++ GenerateTests.nodeChildren n) hsz
      rw [countFuncDefsList_append] at hrec
      cases n with
      | funcDef name args doc src body =>
        simp only [GenerateTests.bfsAux, List.filterMap_cons,
          GenerateTests.toFuncInfo?, List.length_cons]
        rw [hrec]
        simp [GenerateTests.countFuncDefsList, GenerateTests.countFuncDefsNode,
          GenerateTests.nodeChildren]
        omega
      | other children =>
        simp only [GenerateTests.bfsAux, List.filterMap_cons,
          GenerateTests.toFuncInfo?]
        rw [hrec]
        simp [GenerateTests.countFuncDefsList, GenerateTests.countFuncDefsNode,
          GenerateTests.nodeChildren]
        omega

/-- `extract_functions` yields one descriptor per `funcDef` node of the
tree: no function definition is missed and none is deduplicated. -/
theorem extract_functions_length (tree : GenerateTests.PyNode) :
    (GenerateTests.extract_functions tree).length =
      GenerateTests.countFuncDefsNode tree := by
  unfold GenerateTests.extract_functions GenerateTests.bfsWalk
  rw [bfsAux_count (GenerateTests.sizeNodes [tree]) [tree] (Nat.le_refl _)]
  simp [GenerateTests.countFuncDefsList]

theorem strContains_iff (s pat : String) :
    strContains s pat = true ↔
      ∃ pre post, s.toList = pre ++ pat.toList ++ post := by
  unfold strContains
  constructor
  · intro h
    rw [Option.isSome_iff_exists] at h
    obtain ⟨⟨b, a⟩, hba⟩ := h
    exact ⟨b, a, breakOnSub?_eq_some _ hba⟩
  · intro ⟨pre, post, hdecomp⟩
    cases hb : breakOnSub? pat.toList s.toList with
    | some pr => simp
    | none => exact absurd hdecomp (breakOnSub?_eq_none _ hb pre post)


/-! ### Claim theorems -/

/-- C1: for every prompt, the rate-limited callers `review_code` and
`generate_tests_for_function` retry a failed generation call only when the
error is classified as a rate-limit condition, up to the configured bounds
(default 4 for review, 6 for test generation), with one fixed-duration
sleep per retried attempt; a failure not classified as a rate limit is
re-raised immediately on the attempt where it occurs (after exactly
`k - 1` retry sleeps when it occurs at attempt `k`), with no further
retries. -/
theorem retry_immediate_raise_policy (api : Nat → ApiResult) (k : Nat)
    (m : String) (hk : 1 ≤ k)
    (hpre : ∀ i, 1 ≤ i → i < k →
      ∃ mi, api i = ApiResult.failure mi ∧ _is_rate_limit_error mi = true)
    (hfail : api k = ApiResult.failure m)
    (hnrl : _is_rate_limit_error m = false) :
    (k ≤ AiReview.MAX_RETRIES →
      AiReview.review_code api AiReview.MAX_RETRIES =
        CallOutcome.raised m (k - 1)) ∧
    (k ≤ GenerateTests.MAX_RETRIES →
      GenerateTests.generate_tests_for_function api GenerateTests.MAX_RETRIES =
        CallOutcome.raised m (k - 1)) := by
  constructor
  · intro hle
    unfold AiReview.review_code
    rw [attemptLoop_raises api AiReview.MAX_RETRIES 1 none 0 k m hk
      (by unfold AiReview.MAX_RETRIES at hle ⊢; omega) hpre hfail hnrl]
    simp
  · intro hle
    unfold GenerateTests.generate_tests_for_function
    rw [attemptLoop_raises api GenerateTests.MAX_RETRIES 1 none 0 k m hk
      (by unfold GenerateTests.MAX_RETRIES at hle ⊢; omega) hpre hfail hnrl]
    simp

theorem retry_immediate_raise_policy_witness :
    (apiOneRateLimitThenBoom 2 = ApiResult.failure "boom") ∧
    AiReview.review_code apiOneRateLimitThenBoom AiReview.MAX_RETRIES =
      CallOutcome.raised "boom" 1 ∧
    GenerateTests.generate_tests_for_function apiOneRateLimitThenBoom
      GenerateTests.MAX_RETRIES = CallOutcome.raised "boom" 1 := by
  have h := retry_immediate_raise_policy apiOneRateLimitThenBoom 2 "boom"
    (by omega)
    (fun i h1 h2 => by
      have hi : i = 1 := by omega
      subst hi
      exact ⟨"HTTP 429 Too Many Requests", rfl, by decide⟩)
    rfl (by decide)
  exact ⟨rfl, h.1 (by decide), h.2 (by decide)⟩

/-- C2 counterexample: the canned fallback that `review_code` returns when
all retries are exhausted does not contain the substring
`"skipped due to quota"` claimed by the spec — the actual text reads
`"skipped due to Gemini quota/rate limit"`. -/
theorem fallback_text_lacks_claimed_substring :
    AiReview.review_code apiAlwaysRateLimited AiReview.MAX_RETRIES =
      CallOutcome.returned AiReview.reviewQuotaFallback 4 ∧
    strContains AiReview.reviewQuotaFallback "skipped due to quota" = false := by
  decide

/-- C2 (amended): when every retry attempt fails with a
rate-limit-classified error, the two call sites behave differently and
both behaviors hold: `review_code` returns a canned fallback text
containing "skipped due to Gemini quota" and a WARNING severity tag
instead of raising, while `generate_tests_for_function` raises an
exception reporting retry exhaustion; neither call site exhibits the
policy of the other. -/
theorem exhaustion_policies_distinct (api : Nat → ApiResult)
    (hrl : ∀ i, 1 ≤ i → i ≤ 6 →
      ∃ m, api i = ApiResult.failure m ∧ _is_rate_limit_error m = true) :
    AiReview.review_code api AiReview.MAX_RETRIES =
      CallOutcome.returned AiReview.reviewQuotaFallback AiReview.MAX_RETRIES ∧
    strContains AiReview.reviewQuotaFallback "skipped due to Gemini quota" = true ∧
    strContains AiReview.reviewQuotaFallback "SEVERITY_SUMMARY: WARNING" = true ∧
    ∃ mlast, api 6 = ApiResult.failure mlast ∧
      GenerateTests.generate_tests_for_function api GenerateTests.MAX_RETRIES =
        CallOutcome.raised
          ("Gemini error: retries exhausted. Last error: " ++ mlast)
          GenerateTests.MAX_RETRIES := by
  refine ⟨?_, by decide, by decide, ?_⟩
  · obtain ⟨m4, _, hml⟩ := attemptLoop_exhausts api AiReview.MAX_RETRIES 1 none 0
      (by decide)
      (fun i h1 h2 => hrl i h1 (by unfold AiReview.MAX_RETRIES at h2; omega))
    unfold AiReview.review_code
    rw [hml]
    simp [AiReview.MAX_RETRIES]
  · obtain ⟨m6, hm6, hml⟩ := attemptLoop_exhausts api GenerateTests.MAX_RETRIES
      1 none 0 (by decide)
      (fun i h1 h2 => hrl i h1 (by unfold GenerateTests.MAX_RETRIES at h2; omega))
    refine ⟨m6, by simpa using hm6, ?_⟩
    unfold GenerateTests.generate_tests_for_function
    rw [hml]
    simp [GenerateTests.MAX_RETRIES, pyStrOfOpt]

theorem exhaustion_policies_distinct_witness :
    AiReview.review_code apiAlwaysRateLimited AiReview.MAX_RETRIES =
      CallOutcome.returned AiReview.reviewQuotaFallback AiReview.MAX_RETRIES ∧
    strContains AiReview.reviewQuotaFallback "skipped due to Gemini quota" = true ∧
    strContains AiReview.reviewQuotaFallback "SEVERITY_SUMMARY: WARNING" = true ∧
    ∃ mlast, apiAlwaysRateLimited 6 = ApiResult.failure mlast ∧
      GenerateTests.generate_tests_for_function apiAlwaysRateLimited
          GenerateTests.MAX_RETRIES =
        CallOutcome.raised
          ("Gemini error: retries exhausted. Last error: " ++ mlast)
          GenerateTests.MAX_RETRIES :=
  exhaustion_policies_distinct apiAlwaysRateLimited
    (fun i h1 h2 => ⟨"429 RESOURCE_EXHAUSTED", rfl, by decide⟩)

/-- C3 counterexample: on a text whose first prefixed line carries an
invalid level and whose second prefixed line carries `CRITICAL`, the
parser keeps scanning past the first prefixed line and returns
`"CRITICAL"`, not the `"WARNING"` the claim prescribes for an invalid
first prefixed line. -/
theorem parse_severity_not_first_prefixed_line :
    AiReview.parse_severity
        "SEVERITY_SUMMARY: BOGUS\nSEVERITY_SUMMARY: CRITICAL" ≠ "WARNING" ∧
    AiReview.parse_severity
        "SEVERITY_SUMMARY: BOGUS\nSEVERITY_SUMMARY: CRITICAL" = "CRITICAL" := by
  decide

/-- C3 (amended): `parse_severity` scans line by line, considers only
lines whose stripped form starts with `"SEVERITY_SUMMARY:"`, and returns,
for the first such line whose post-colon remainder trims and uppercases to
one of CRITICAL, WARNING or GOOD, that level; if no prefixed line carries
a valid level it returns WARNING.  In particular a text containing a line
`"SEVERITY_SUMMARY: CRITICAL"` (possibly with trailing whitespace) and no
earlier prefixed line yields CRITICAL (same for WARNING/GOOD), and a text
with no prefixed line yields WARNING. -/
theorem parse_severity_first_valid_line :
    (∀ t, AiReview.parse_severity t = AiReview.parse_severity_spec t) ∧
    AiReview.parse_severity "SEVERITY_SUMMARY: CRITICAL \nmore text" =
      "CRITICAL" ∧
    AiReview.parse_severity "intro line\nSEVERITY_SUMMARY: WARNING" =
      "WARNING" ∧
    AiReview.parse_severity "intro line\nSEVERITY_SUMMARY: GOOD\t\nbye" =
      "GOOD" ∧
    AiReview.parse_severity "no prefixed line here" = "WARNING" := by
  refine ⟨?_, by decide, by decide, by decide, by decide⟩
  intro t
  unfold AiReview.parse_severity AiReview.parse_severity_spec
  exact severityLoop_eq_findSome? _

theorem except_bind_ok {α β : Type} (x : α) (f : α → Except String β) :
    (Except.ok x >>= f) = f x := rfl

theorem except_bind_error {α β : Type} (e : String)
    (f : α → Except String β) :
    ((Except.error e : Except String α) >>= f) = Except.error e := rfl

/-- C4: `analyze_code_with_gemini` strips an optional triple-backtick code
fence — a text wrapped in a leading and trailing fence around valid JSON
parses to exactly that JSON value, and `{"findings": []}` parses to zero
findings; on any parse failure or exception raised during the call it
returns a record with an `"error"` key and an empty findings list (the
model is a total function: it never raises); and the scanning loop of
`main` treats presence of `"error"` as skip-and-continue. -/
theorem analyze_fence_and_error_recovery
    (loads : String → Except String FindStale.Json) (body : String)
    (j : FindStale.Json)
    (hparse : loads (pyStrip body) = Except.ok j) :
    FindStale.analyze_code_with_gemini loads
        (Except.ok ("```json\n" ++ body ++ "\n```")) = j ∧
    (∀ e, FindStale.analyze_code_with_gemini loads (Except.error e) =
      FindStale.errRecord e) ∧
    (∀ t e, pyStartsWith (pyStrip t) "```" = false →
      loads (pyStrip t) = Except.error e →
      FindStale.analyze_code_with_gemini loads (Except.ok t) =
        FindStale.errRecord e) ∧
    (loads "\x7b\"findings\": []\x7d" =
        Except.ok (FindStale.Json.obj [("findings", FindStale.Json.arr [])]) →
      FindStale.jsonGetFindings (FindStale.analyze_code_with_gemini loads
        (Except.ok "\x7b\"findings\": []\x7d")) = []) ∧
    (∀ acc file_path result, FindStale.jsonHasKey result "error" = true →
      FindStale.scanStep acc file_path result = acc) := by
  refine ⟨?_, ?_, ?_, ?_, ?_⟩
  · unfold FindStale.analyze_code_with_gemini
    rw [except_bind_ok, pyStrip_fenced, fenceStrip_fenced, except_bind_ok,
      hparse]
  · intro e
    rfl
  · intro t e hng hload
    unfold FindStale.analyze_code_with_gemini
    rw [except_bind_ok]
    unfold FindStale.fenceStrip
    rw [if_neg (by simp [hng])]
    rw [except_bind_ok, hload]
  · intro hld
    unfold FindStale.analyze_code_with_gemini
    rw [except_bind_ok]
    rw [show pyStrip "\x7b\"findings\": []\x7d" = "\x7b\"findings\": []\x7d"
      from by decide]
    unfold FindStale.fenceStrip
    rw [if_neg (by decide)]
    rw [except_bind_ok, hld]
    rfl
  · intro acc file_path result h
    unfold FindStale.scanStep
    rw [if_pos h]

theorem analyze_fence_and_error_recovery_witness :
    FindStale.loads0 (pyStrip FindStale.body0) = Except.ok FindStale.j0 ∧
    FindStale.analyze_code_with_gemini FindStale.loads0
      (Except.ok ("```json\n" ++ FindStale.body0 ++ "\n```")) =
        FindStale.j0 := by
  have h : FindStale.loads0 (pyStrip FindStale.body0) =
      Except.ok FindStale.j0 := by
    rw [show pyStrip FindStale.body0 = FindStale.body0 from by decide]
    simp [FindStale.loads0]
  exact ⟨h, (analyze_fence_and_error_recovery FindStale.loads0
    FindStale.body0 FindStale.j0 h).1⟩

/-- C5: the rate-limit classifier returns true exactly when the message
contains `"429"`, or `"RESOURCE_EXHAUSTED"`, or — after lowercasing —
`"rate limit"`; in particular it accepts messages carrying any of those
markers and rejects `"connection refused"`. -/
theorem rate_limit_classifier_characterization (msg : String) :
    (_is_rate_limit_error msg = true ↔
      (∃ pre post, msg.toList = pre ++ "429".toList ++ post) ∨
      (∃ pre post, msg.toList = pre ++ "RESOURCE_EXHAUSTED".toList ++ post) ∨
      (∃ pre post, (pyLower msg).toList =
        pre ++ "rate limit".toList ++ post)) ∧
    _is_rate_limit_error "HTTP 429 Too Many Requests" = true ∧
    _is_rate_limit_error "error: RESOURCE_EXHAUSTED quota" = true ∧
    _is_rate_limit_error "Rate Limit exceeded" = true ∧
    _is_rate_limit_error "connection refused" = false := by
  refine ⟨?_, by decide, by decide, by decide, by decide⟩
  unfold _is_rate_limit_error
  simp only [Bool.or_eq_true, strContains_iff]
  exact or_assoc

/-- C6: `extract_functions` collects one descriptor per function
definition of the tree (top-level or nested, walk order, no
deduplication), capturing name, positional parameter names, docstring
(empty when absent) and source span; underscore/skip-list filtering is a
separate later step: for a file defining `a`, `_private` and `b`,
extraction returns all three descriptors and filtering leaves `a` and
`b`. -/
theorem extract_then_filter_functions :
    (∀ tree, (GenerateTests.extract_functions tree).length =
      GenerateTests.countFuncDefsNode tree) ∧
    GenerateTests.extract_functions GenerateTests.exampleModule =
      [⟨"a", ["x"], "Doc a.", "def a(x): return x"⟩,
       ⟨"_private", [], "", "def _private(): pass"⟩,
       ⟨"b", [], "", "def b(): pass"⟩] ∧
    GenerateTests.filterFunctions
        (GenerateTests.extract_functions GenerateTests.exampleModule) =
      [⟨"a", ["x"], "Doc a.", "def a(x): return x"⟩,
       ⟨"b", [], "", "def b(): pass"⟩] ∧
    (GenerateTests.extract_functions GenerateTests.nestedModule).map
      GenerateTests.FuncInfo.name = ["outer", "outer", "inner"] :=
  ⟨extract_functions_length, by decide, by decide, by decide⟩

/-- C7: the stale-code scan exits 1 exactly when the accumulated findings
list is non-empty and 0 exactly when it is empty; a scan over two files
yielding one finding and zero findings exits 1 with that single finding
reported. -/
theorem scan_exit_code_signals_findings (read : String → String)
    (analyze : String → String → FindStale.Json) (files : List String) :
    (FindStale.scan_exit_code (FindStale.main_findings read analyze files) = 1
      ↔ FindStale.main_findings read analyze files ≠ []) ∧
    (FindStale.scan_exit_code (FindStale.main_findings read analyze files) = 0
      ↔ FindStale.main_findings read analyze files = []) ∧
    FindStale.main_findings FindStale.read0 FindStale.analyze0
        ["a.py", "b.py"] =
      [FindStale.Json.obj [("name", FindStale.Json.str "unused_helper"),
        ("file", FindStale.Json.str "a.py")]] ∧
    FindStale.scan_exit_code (FindStale.main_findings FindStale.read0
      FindStale.analyze0 ["a.py", "b.py"]) = 1 := by
  have hiff : ∀ l : List FindStale.Json,
      (FindStale.scan_exit_code l = 1 ↔ l ≠ []) ∧
      (FindStale.scan_exit_code l = 0 ↔ l = []) := by
    intro l
    cases l <;> simp [FindStale.scan_exit_code]
  exact ⟨(hiff _).1, (hiff _).2, rfl, rfl⟩

/-- C8: with the API credential absent, the review script soft-skips —
it prints the placeholder review, writes `"WARNING"` to the severity file
and exits 0 without calling the API — while the test-generation script
(invoked on a non-empty file list) raises before any API call. -/
theorem missing_credential_policies (api : Nat → ApiResult)
    (files : List String) (rest : GenerateTests.GenMainOutcome)
    (hne : files ≠ []) :
    AiReview.ai_review_main none api =
      AiReview.MainOutcome.exited 0 AiReview.missingKeyReview "WARNING"
        false ∧
    GenerateTests.generate_tests_main files none rest =
      GenerateTests.GenMainOutcome.raised
        "Missing GEMINI_API_KEY environment variable" false := by
  refine ⟨rfl, ?_⟩
  unfold GenerateTests.generate_tests_main
  rw [if_neg (by simp [List.isEmpty_iff, hne])]
  rfl

theorem missing_credential_policies_witness :
    ((["app.py"] : List String) ≠ []) ∧
    (AiReview.ai_review_main none apiAlwaysRateLimited =
      AiReview.MainOutcome.exited 0 AiReview.missingKeyReview "WARNING"
        false ∧
    GenerateTests.generate_tests_main ["app.py"] none
        (GenerateTests.GenMainOutcome.finished true) =
      GenerateTests.GenMainOutcome.raised
        "Missing GEMINI_API_KEY environment variable" false) :=
  ⟨by simp, missing_credential_policies apiAlwaysRateLimited ["app.py"]
    (GenerateTests.GenMainOutcome.finished true) (by simp)⟩

/-- C9: whenever `review_code` exhausts all its retry attempts on
rate-limit errors, it returns its fallback text, and `parse_severity` on
that text yields exactly `"WARNING"` — the graceful-fallback path can
never produce CRITICAL or GOOD downstream. -/
theorem quota_fallback_parses_warning (api : Nat → ApiResult)
    (hrl : ∀ i, 1 ≤ i → i ≤ AiReview.MAX_RETRIES →
      ∃ m, api i = ApiResult.failure m ∧ _is_rate_limit_error m = true) :
    ∃ t s, AiReview.review_code api AiReview.MAX_RETRIES =
      CallOutcome.returned t s ∧ AiReview.parse_severity t = "WARNING" := by
  obtain ⟨m4, _, hml⟩ := attemptLoop_exhausts api AiReview.MAX_RETRIES 1 none 0
    (by decide)
    (fun i h1 h2 => hrl i h1 (by unfold AiReview.MAX_RETRIES at h2 ⊢; omega))
  refine ⟨AiReview.reviewQuotaFallback, 0 + AiReview.MAX_RETRIES, ?_,
    by decide⟩
  unfold AiReview.review_code
  rw [hml]

theorem quota_fallback_parses_warning_witness :
    ∃ t s, AiReview.review_code apiAlwaysRateLimited AiReview.MAX_RETRIES =
      CallOutcome.returned t s ∧ AiReview.parse_severity t = "WARNING" :=
  quota_fallback_parses_warning apiAlwaysRateLimited
    (fun i h1 h2 => ⟨"429 RESOURCE_EXHAUSTED", rfl, by decide⟩)

/-- C10: every path returned by `get_python_files` ends in `".py"` and has
no component equal to `"venv"`, `".venv"`, `"node_modules"`,
`"__pycache__"` or `".git"`. -/
theorem python_files_excluded_dirs (paths : List (List String))
    (p : List String) (hmem : p ∈ FindStale.get_python_files paths) :
    (∃ name, p.getLast? = some name ∧ pyEndsWith name ".py" = true) ∧
    "venv" ∉ p ∧ ".venv" ∉ p ∧ "node_modules" ∉ p ∧
    "__pycache__" ∉ p ∧ ".git" ∉ p := by
  unfold FindStale.get_python_files at hmem
  rw [List.mem_filter] at hmem
  obtain ⟨hmem1, hignored⟩ := hmem
  rw [List.mem_filter] at hmem1
  obtain ⟨_, hpy⟩ := hmem1
  simp only [Bool.not_eq_true', List.any_eq_false] at hignored
  have hnot : ∀ x : String, ¬p.contains x = true → x ∉ p :=
    fun x h hmem => h (List.elem_iff.mpr hmem)
  refine ⟨?_, hnot _ (hignored "venv" (by simp [FindStale.IGNORED_PARTS])),
    hnot _ (hignored ".venv" (by simp [FindStale.IGNORED_PARTS])),
    hnot _ (hignored "node_modules" (by simp [FindStale.IGNORED_PARTS])),
    hnot _ (hignored "__pycache__" (by simp [FindStale.IGNORED_PARTS])),
    hnot _ (hignored ".git" (by simp [FindStale.IGNORED_PARTS]))⟩
  revert hpy
  cases hl : p.getLast? with
  | none => intro h; exact absurd h (by simp)
  | some name => intro h; exact ⟨name, rfl, h⟩

theorem python_files_excluded_dirs_witness :
    (["src", "c.py"] ∈ FindStale.get_python_files
      [["a.py"], ["venv", "b.py"], ["src", "c.py"], ["notes.txt"],
       ["x", "__pycache__", "d.py"]]) ∧
    ((∃ name, (["src", "c.py"] : List String).getLast? = some name ∧
        pyEndsWith name ".py" = true) ∧
      "venv" ∉ (["src", "c.py"] : List String) ∧
      ".venv" ∉ (["src", "c.py"] : List String) ∧
      "node_modules" ∉ (["src", "c.py"] : List String) ∧
      "__pycache__" ∉ (["src", "c.py"] : List String) ∧
      ".git" ∉ (["src", "c.py"] : List String)) :=
  ⟨by decide, python_files_excluded_dirs
    [["a.py"], ["venv", "b.py"], ["src", "c.py"], ["notes.txt"],
     ["x", "__pycache__", "d.py"]] ["src", "c.py"] (by decide)⟩
